import Mathlib

/-!
# AlphaPunch core: chroma-key extraction, resampling, history cache, orchestration

Shallow embedding of the post-generation pixel pipeline and the
generation-orchestration state machine of `src/App.tsx` (component `App`,
helper `processImageTransparency`) together with the data declarations of
`src/types.ts` (`AppStatus`, `HistoryItem`).

Images travel through the app as base64 data-URL strings; we model them as
opaque `String`s.  Decoded pixel data (`ImageData.data`, a `Uint8ClampedArray`
of RGBA bytes) is modelled as a `List Nat` of channel values, walked four at a
time exactly as the `for (let i = 0; i < data.length; i += 4)` loop does.
-/

namespace AlphaPunch

/-! ## Pixels and the chroma-key loop (`processImageTransparency`, lines 48-61) -/

/-- One decoded RGBA pixel: four 8-bit channels in (R,G,B,A) order. -/
structure Pixel where
  r : Nat
  g : Nat
  b : Nat
  a : Nat
deriving Repr, DecidableEq

/-- `const minGreen = 40` (App.tsx line 48). -/
def minGreen : Nat := 40

/-- `const dominanceThreshold = 10` (App.tsx line 49). -/
def dominanceThreshold : Nat := 10

/-- The pixel classifier of the loop, generalised over the two policy numbers.
`isGreen = g > r + dominanceThreshold && g > b + dominanceThreshold && g > minGreen`
(App.tsx line 56).  The source hardcodes `dominanceThreshold = 10` and
`minGreen = 40`; the `KeyColorPolicy` parameters come from spec §4.1. -/
def isGreenP (margin minG : Nat) (g r b : Nat) : Bool :=
  decide (g > r + margin) && decide (g > b + margin) && decide (g > minG)

/-- The classifier at the source's constants. -/
def isGreen (g r b : Nat) : Bool :=
  isGreenP dominanceThreshold minGreen g r b

/-- The body of the chroma-key loop over the flat RGBA byte array, generalised
over the policy numbers: for each 4-byte group, if `isGreen` then
`data[i + 3] = 0`, otherwise the bytes are untouched (App.tsx lines 51-61). -/
def processDataP (margin minG : Nat) : List Nat → List Nat
  | r :: g :: b :: a :: rest =>
    if isGreenP margin minG g r b then
      r :: g :: b :: 0 :: processDataP margin minG rest
    else
      r :: g :: b :: a :: processDataP margin minG rest
  | l => l

/-- The chroma-key loop at the source's constants (the code as written). -/
def processData (data : List Nat) : List Nat :=
  processDataP dominanceThreshold minGreen data

/-- Pixel-level view of one loop iteration at the source's constants. -/
def punchPixel (p : Pixel) : Pixel :=
  if isGreen p.g p.r p.b then { p with a := 0 } else p

/-- Pixel-level view of one loop iteration, policy-generalised. -/
def punchPixelP (margin minG : Nat) (p : Pixel) : Pixel :=
  if isGreenP margin minG p.g p.r p.b then { p with a := 0 } else p

/-- Flatten a pixel list into the RGBA byte array layout of `ImageData.data`. -/
def flatten : List Pixel → List Nat
  | [] => []
  | p :: ps => p.r :: p.g :: p.b :: p.a :: flatten ps

/-- The extractor as a buffer-in/buffer-out function over structured pixels
(spec §4.1 `extract`), policy-generalised. -/
def extractP (margin minG : Nat) (ps : List Pixel) : List Pixel :=
  ps.map (punchPixelP margin minG)

/-- The extractor at the source's default policy. -/
def extract (ps : List Pixel) : List Pixel :=
  ps.map punchPixel

theorem processDataP_flatten (margin minG : Nat) (ps : List Pixel) :
    processDataP margin minG (flatten ps) = flatten (extractP margin minG ps) := by
  induction ps with
  | nil => rfl
  | cons p ps ih =>
    simp only [flatten, processDataP, extractP, List.map, punchPixelP]
    by_cases h : isGreenP margin minG p.g p.r p.b
    · simp [h, flatten, ih, extractP]
    · simp [h, flatten, ih, extractP]

/-! ## Resampling and encoding (`resize`, App.tsx lines 65-76) -/

/-- A decoded pixel buffer: the canvas contents after the chroma-key pass. -/
structure Buffer where
  w : Nat
  h : Nat
  data : List Pixel
deriving Repr, DecidableEq

/-- `canvas.toDataURL('image/png')`: a lossless PNG encoding, modelled as a
wrapper that keeps the encoded pixel content intact. -/
structure EncodedPNG where
  pixels : Buffer
deriving Repr, DecidableEq

/-- The `resize` helper (App.tsx lines 65-76).  JavaScript number truthiness:
`targetWidth && targetHeight && ...` short-circuits to the skip branch when
either target is `undefined` or `0`.  When the targets are truthy and differ
from the canvas size, the canvas is redrawn at the target size — the browser's
`drawImage` interpolation is host-defined and passed in as `scale`; otherwise
the canvas is encoded as-is. -/
def resize (scale : Buffer → Nat → Nat → Buffer) (canvas : Buffer)
    (targetWidth targetHeight : Option Nat) : EncodedPNG :=
  match targetWidth, targetHeight with
  | some tw, some th =>
    if tw ≠ 0 ∧ th ≠ 0 ∧ (tw ≠ canvas.w ∨ th ≠ canvas.h) then
      { pixels := scale canvas tw th }
    else
      { pixels := canvas }
  | _, _ => { pixels := canvas }

/-! ## Application state (`src/types.ts` and the `App` component state) -/

/-- `export enum AppStatus` (types.ts lines 1-6). -/
inductive AppStatus where
  | IDLE
  | PROCESSING
  | SUCCESS
  | ERROR
deriving Repr, DecidableEq

/-- `export interface HistoryItem` (types.ts lines 8-15). -/
structure HistoryItem where
  id : String
  timestamp : Nat
  original : String
  generated : String
  promptUsed : String
  thumbnail : String
deriving Repr, DecidableEq

/-- The `useState` cells of the `App` component that the orchestration logic
reads and writes (App.tsx lines 86-95).  `fullViewImage` is pure presentation
and is omitted. -/
structure AppState where
  status : AppStatus
  sourceImage : Option String
  originalDims : Option (Nat × Nat)
  mimeType : String
  generatedImage : Option String
  prompt : String
  usePro : Bool
  error : Option String
  analysis : Option String
  history : List HistoryItem
deriving Repr, DecidableEq

/-- `PRESETS[0].text` (App.tsx line 13), the initial value of the `prompt` cell. -/
def presetWindowPunchText : String :=
  "Edit this image: Locate all window glass. Replace ONLY the view seen through the windows with solid pure green #00FF00. Do not change the window frames, curtains, or any interior items."

/-- The component's initial state (the `useState` initialisers, App.tsx 86-95). -/
def initState : AppState :=
  { status := AppStatus.IDLE
  , sourceImage := none
  , originalDims := none
  , mimeType := "image/png"
  , generatedImage := none
  , prompt := presetWindowPunchText
  , usePro := false
  , error := none
  , analysis := none
  , history := [] }

/-- JavaScript truthiness of a `string | null` value: `null`, `undefined` and
`""` are falsy.  Used by `if (!sourceImage) return` (line 119) and the
`disabled={!sourceImage || ...}` guard (line 221). -/
def truthyStr (o : Option String) : Bool :=
  match o with
  | none => false
  | some s => !(s == "")

/-- `handleImageSelect` (App.tsx lines 98-116): store the new source and MIME
type, capture its native dimensions (the `img.onload` callback), clear the
generated image, return to `IDLE`, clear the error and the analysis text.
The trailing best-effort `analyzeImageScene` call only ever writes `analysis`
when it later resolves and is modelled separately. -/
def handleImageSelect (s : AppState) (base64 ty : String) (dims : Nat × Nat) : AppState :=
  { s with
      originalDims := some dims
    , sourceImage := some base64
    , mimeType := ty
    , generatedImage := none
    , status := AppStatus.IDLE
    , error := none
    , analysis := none }

/-- The values `handleGenerate` captures in its closure when it starts: the
current source bytes, MIME type, prompt, quality flag and target dimensions
(the arguments of lines 126-127). -/
structure PendingGen where
  source : String
  mime : String
  prompt : String
  usePro : Bool
  dims : Option (Nat × Nat)
deriving Repr, DecidableEq

/-- The synchronous prefix of `handleGenerate` (App.tsx lines 118-124): if the
source image is falsy, return without touching anything; otherwise enter
`PROCESSING`, clear the error and the generated image, and launch the edit
call (returned as the captured closure data). -/
def handleGenerateStart (s : AppState) : AppState × Option PendingGen :=
  if truthyStr s.sourceImage then
    ({ s with status := AppStatus.PROCESSING, error := none, generatedImage := none }
    , some
      { source := s.sourceImage.getD ""
      , mime := s.mimeType
      , prompt := s.prompt
      , usePro := s.usePro
      , dims := s.originalDims })
  else
    (s, none)

/-- The `disabled={!sourceImage || status === AppStatus.PROCESSING}` guard on
the PUNCH ALPHA button (App.tsx line 221): a generate request only reaches
`handleGenerate` when the button is enabled. -/
def clickGenerate (s : AppState) : AppState × Option PendingGen :=
  if !truthyStr s.sourceImage || s.status == AppStatus.PROCESSING then
    (s, none)
  else
    handleGenerateStart s

/-- The history record built on a successful generation (App.tsx lines
130-137): `id: Date.now().toString()`, `timestamp: Date.now()`, the captured
source as `original`, the processed result as both `generated` and
`thumbnail`, and the captured prompt. -/
def mkHistoryEntry (p : PendingGen) (finalImage : String) (now : Nat) : HistoryItem :=
  { id := toString now
  , timestamp := now
  , original := p.source
  , generated := finalImage
  , promptUsed := p.prompt
  , thumbnail := finalImage }

/-- `setHistory(prev => [newItem, ...prev].slice(0, 10))` (App.tsx lines
130-137): prepend, then keep the first ten. -/
def historyPush (item : HistoryItem) (prev : List HistoryItem) : List HistoryItem :=
  (item :: prev).take 10

/-- The success continuation of `handleGenerate` (App.tsx lines 129-138),
applied when the awaited edit-and-process chain resolves: store the final
image, push the history record, set `SUCCESS`.  The source performs these
state writes unconditionally — there is no sequence-token comparison. -/
def handleGenerateSuccess (s : AppState) (p : PendingGen) (finalImage : String)
    (now : Nat) : AppState :=
  { s with
      generatedImage := some finalImage
    , history := historyPush (mkHistoryEntry p finalImage now) s.history
    , status := AppStatus.SUCCESS }

/-- `e.message || "Failed to process image."` (App.tsx line 141): a missing or
empty message falls back to the fixed text. -/
def failMessage (m : Option String) : String :=
  match m with
  | some msg => if msg == "" then "Failed to process image." else msg
  | none => "Failed to process image."

/-- The catch block of `handleGenerate` (App.tsx lines 139-143): record the
human-readable message and set `ERROR`.  Also applied unconditionally. -/
def handleGenerateFailure (s : AppState) (m : Option String) : AppState :=
  { s with error := some (failMessage m), status := AppStatus.ERROR }

/-- The resolution of the fire-and-forget `analyzeImageScene` call inside
`handleImageSelect` (App.tsx lines 110-115): on success the text is stored
with no staleness check; on failure nothing is written. -/
def applyAnalysis (s : AppState) (result : String) : AppState :=
  { s with analysis := some result }

/-! ## Event traces

The host (user actions plus promise resolutions) drives the component through
these events.  Promise resolutions carry the closure data the source captured
and the clock value `Date.now()` read at resolution time; the source applies
them without any staleness guard, which the model reproduces. -/

inductive Event where
  | select (img ty : String) (dims : Nat × Nat)
  | genClick
  | genSuccess (p : PendingGen) (finalImage : String) (now : Nat)
  | genFailure (m : Option String)
  | analysisDone (result : String)
deriving Repr, DecidableEq

/-- One event applied to the component state. -/
def step (s : AppState) : Event → AppState
  | Event.select img ty dims => handleImageSelect s img ty dims
  | Event.genClick => (clickGenerate s).1
  | Event.genSuccess p finalImage now => handleGenerateSuccess s p finalImage now
  | Event.genFailure m => handleGenerateFailure s m
  | Event.analysisDone result => applyAnalysis s result

/-- Run a trace of events from a state. -/
def run (s : AppState) (es : List Event) : AppState :=
  es.foldl step s

/-! ## Concrete inputs used by counterexamples and witnesses -/

/-- A concrete history record, indexed so distinct indices give distinct ids. -/
def wItem (n : Nat) : HistoryItem :=
  { id := toString n, timestamp := n, original := "orig", generated := "gen"
  , promptUsed := "prompt", thumbnail := "thumb" }

/-- The closure data `handleGenerate` captures after `imgA` is selected:
source `imgA`, its MIME type and native dimensions, the initial preset
prompt, standard quality. -/
def wPendingA : PendingGen :=
  { source := "imgA", mime := "image/png", prompt := presetWindowPunchText
  , usePro := false, dims := some (2, 2) }

/-- Closure data of a generation of a 1×1 image, for the id-collision run. -/
def wPendingS : PendingGen :=
  { source := "img", mime := "image/png", prompt := "p", usePro := false
  , dims := some (1, 1) }

/-- A `SUCCESS` state holding a previously generated image. -/
def c4Before : AppState :=
  { initState with
      status := AppStatus.SUCCESS
    , sourceImage := some "src"
    , generatedImage := some "oldGen" }

/-- The list of characters `Nat.repr` prints: `'0'` for zero, otherwise the
base-10 digits most-significant-first.  Used to prove that history ids built
from distinct `Date.now()` readings are distinct. -/
def charsOfNat (n : Nat) : List Char :=
  if n = 0 then ['0'] else ((Nat.digits 10 n).map Nat.digitChar).reverse

/-! ## Shared lemmas -/

theorem digitChar_inj_lt (d1 d2 : Nat) (h1 : d1 < 10) (h2 : d2 < 10)
    (he : Nat.digitChar d1 = Nat.digitChar d2) : d1 = d2 := by
  interval_cases d1 <;> interval_cases d2 <;> revert he <;> decide

theorem toDigitsCore_eq_digits (f : Nat) :
    ∀ (n : Nat) (ds : List Char), n ≠ 0 → n ≤ f →
      Nat.toDigitsCore 10 f n ds
        = ((Nat.digits 10 n).map Nat.digitChar).reverse ++ ds := by
  induction f with
  | zero => intro n ds hn hf; omega
  | succ f ih =>
    intro n ds hn hf
    rw [Nat.digits_def' (by norm_num : (1:ℕ) < 10) (Nat.pos_of_ne_zero hn)]
    show (if n / 10 = 0 then Nat.digitChar (n % 10) :: ds
          else Nat.toDigitsCore 10 f (n / 10) (Nat.digitChar (n % 10) :: ds)) = _
    by_cases h : n / 10 = 0
    · rw [if_pos h, h]
      simp
    · rw [if_neg h]
      have hlt : n / 10 < n := Nat.div_lt_self (Nat.pos_of_ne_zero hn) (by norm_num)
      rw [ih (n / 10) (Nat.digitChar (n % 10) :: ds) h (by omega)]
      simp

theorem toDigits_eq_charsOfNat (n : Nat) : Nat.toDigits 10 n = charsOfNat n := by
  by_cases h : n = 0
  · subst h; rfl
  · rw [charsOfNat, if_neg h]
    show Nat.toDigitsCore 10 (n + 1) n [] = _
    rw [toDigitsCore_eq_digits (n + 1) n [] h (by omega)]
    simp

theorem map_digitChar_inj {l1 l2 : List Nat} (h1 : ∀ x ∈ l1, x < 10)
    (h2 : ∀ x ∈ l2, x < 10) (he : l1.map Nat.digitChar = l2.map Nat.digitChar) :
    l1 = l2 := by
  induction l1 generalizing l2 with
  | nil => cases l2 <;> simp_all
  | cons a l ih =>
    cases l2 with
    | nil => simp_all
    | cons b m =>
      simp only [List.map_cons, List.cons.injEq] at he
      have ha := digitChar_inj_lt a b (h1 a (by simp)) (h2 b (by simp)) he.1
      have hm := ih (fun x hx => h1 x (by simp [hx])) (fun x hx => h2 x (by simp [hx])) he.2
      simp [ha, hm]

theorem eq_zero_of_charsOfNat_eq_zeroChar {n : Nat} (h : charsOfNat n = ['0']) :
    n = 0 := by
  by_cases hn : n = 0
  · exact hn
  · exfalso
    rw [charsOfNat, if_neg hn] at h
    have hmap : (Nat.digits 10 n).map Nat.digitChar = ['0'] := by
      have := congrArg List.reverse h
      simpa using this
    have hdig : Nat.digits 10 n = [0] := by
      cases hd : Nat.digits 10 n with
      | nil => rw [hd] at hmap; simp at hmap
      | cons d rest =>
        rw [hd] at hmap
        simp only [List.map_cons, List.cons.injEq, List.map_eq_nil_iff] at hmap
        have hd0 : d = 0 := digitChar_inj_lt d 0
          (Nat.digits_lt_base (by norm_num) (by rw [hd]; simp)) (by norm_num)
          (by rw [hmap.1]; rfl)
        simp [hd0, hmap.2]
    have : n = 0 := by
      conv_lhs => rw [← Nat.ofDigits_digits 10 n]
      rw [hdig]
      simp [Nat.ofDigits]
    exact hn this

theorem charsOfNat_inj {n1 n2 : Nat} (h : charsOfNat n1 = charsOfNat n2) :
    n1 = n2 := by
  by_cases h1 : n1 = 0
  · subst h1
    exact (eq_zero_of_charsOfNat_eq_zeroChar h.symm).symm
  · by_cases h2 : n2 = 0
    · subst h2
      exact eq_zero_of_charsOfNat_eq_zeroChar h
    · rw [charsOfNat, if_neg h1, charsOfNat, if_neg h2] at h
      have hrev := List.reverse_injective h
      have hd := map_digitChar_inj
        (fun x hx => Nat.digits_lt_base (by norm_num) hx)
        (fun x hx => Nat.digits_lt_base (by norm_num) hx) hrev
      calc n1 = Nat.ofDigits 10 (Nat.digits 10 n1) := (Nat.ofDigits_digits 10 n1).symm
      _ = Nat.ofDigits 10 (Nat.digits 10 n2) := by rw [hd]
      _ = n2 := Nat.ofDigits_digits 10 n2

theorem natRepr_inj {n1 n2 : Nat} (h : Nat.repr n1 = Nat.repr n2) : n1 = n2 := by
  have hlist : Nat.toDigits 10 n1 = Nat.toDigits 10 n2 := by
    have hstr : (Nat.toDigits 10 n1).asString = (Nat.toDigits 10 n2).asString := h
    exact congrArg String.data hstr
  rw [toDigits_eq_charsOfNat, toDigits_eq_charsOfNat] at hlist
  exact charsOfNat_inj hlist

theorem natToString_inj {n1 n2 : Nat} (h : toString n1 = toString n2) : n1 = n2 :=
  natRepr_inj h

theorem failMessage_ne_empty (m : Option String) : failMessage m ≠ "" := by
  cases m with
  | none => simp [failMessage]
  | some msg =>
    by_cases h : msg = ""
    · subst h; simp [failMessage]
    · simp [failMessage, h]

theorem extractP_idem (margin minG : Nat) (ps : List Pixel) :
    extractP margin minG (extractP margin minG ps) = extractP margin minG ps := by
  simp only [extractP, List.map_map]
  apply List.map_congr_left
  intro p _
  simp only [Function.comp_apply, punchPixelP]
  by_cases h : isGreenP margin minG p.g p.r p.b
  · simp [h, isGreenP] at *
    simp [h]
  · simp [h]

theorem processDataP_idem (margin minG : Nat) :
    ∀ data : List Nat,
      processDataP margin minG (processDataP margin minG data) = processDataP margin minG data
  | r :: g :: b :: a :: rest => by
    by_cases h : isGreenP margin minG g r b
    · simp [processDataP, h, processDataP_idem margin minG rest]
    · simp [processDataP, h, processDataP_idem margin minG rest]
  | [] => rfl
  | [_] => rfl
  | [_, _] => rfl
  | [_, _, _] => rfl

theorem historyPush_length_le (item : HistoryItem) (prev : List HistoryItem) :
    (historyPush item prev).length ≤ 10 := by
  simp only [historyPush, List.length_take]
  exact Nat.min_le_left _ _

/-- Every step either leaves the history alone or pushes one record whose
thumbnail equals its generated image. -/
theorem step_history_cases (s : AppState) (e : Event) :
    (step s e).history = s.history ∨
    ∃ item, item.thumbnail = item.generated ∧
      (step s e).history = historyPush item s.history := by
  cases e with
  | select img ty dims => exact Or.inl rfl
  | genClick =>
    left
    show (clickGenerate s).1.history = s.history
    unfold clickGenerate
    split
    · rfl
    · unfold handleGenerateStart
      split <;> rfl
  | genSuccess p finalImage now =>
    exact Or.inr ⟨mkHistoryEntry p finalImage now, rfl, rfl⟩
  | genFailure m => exact Or.inl rfl
  | analysisDone result => exact Or.inl rfl

theorem step_history_length_le (s : AppState) (e : Event)
    (hs : s.history.length ≤ 10) : (step s e).history.length ≤ 10 := by
  rcases step_history_cases s e with h | ⟨item, _, h⟩
  · rw [h]; exact hs
  · rw [h]; exact historyPush_length_le item s.history

theorem run_history_length_le :
    ∀ (trace : List Event) (s : AppState), s.history.length ≤ 10 →
      (run s trace).history.length ≤ 10
  | [], _, hs => hs
  | e :: es, s, hs =>
    run_history_length_le es (step s e) (step_history_length_le s e hs)

theorem historyPush_all {p : HistoryItem → Bool} {item : HistoryItem}
    {prev : List HistoryItem} (hi : p item = true) (hp : prev.all p = true) :
    (historyPush item prev).all p = true := by
  rw [List.all_eq_true] at *
  intro x hx
  have : x ∈ item :: prev := List.take_subset 10 (item :: prev) hx
  rcases List.mem_cons.mp this with rfl | h
  · exact hi
  · exact hp x h

theorem run_history_all_thumb :
    ∀ (trace : List Event) (s : AppState),
      (s.history.all fun it => it.thumbnail == it.generated) = true →
      ((run s trace).history.all fun it => it.thumbnail == it.generated) = true
  | [], _, hs => hs
  | e :: es, s, hs => by
    refine run_history_all_thumb es (step s e) ?_
    rcases step_history_cases s e with h | ⟨item, hitem, h⟩
    · rw [h]; exact hs
    · rw [h]
      exact historyPush_all (by simp [hitem]) hs

/-! ## Claim theorems -/

/-- C1: for every pixel (r,g,b,a) of the input buffer, the chroma-key loop
classifies the pixel as key iff `g > r + 10` and `g > b + 10` and `g > 40`
(the default policy constants); a key pixel gets alpha 0 with r,g,b
unchanged; a non-key pixel is byte-identical before and after. -/
theorem chromaKey_classification :
    (∀ g r b : Nat, isGreen g r b = true ↔ (g > r + 10 ∧ g > b + 10 ∧ g > 40)) ∧
    (∀ p : Pixel, isGreen p.g p.r p.b = true →
      punchPixel p = { r := p.r, g := p.g, b := p.b, a := 0 }) ∧
    (∀ p : Pixel, isGreen p.g p.r p.b = false → punchPixel p = p) ∧
    (∀ ps : List Pixel, processData (flatten ps) = flatten (extract ps)) ∧
    (∀ ps : List Pixel, ∀ i : Nat, (extract ps)[i]? = ps[i]?.map punchPixel) := by
  refine ⟨?_, ?_, ?_, ?_, ?_⟩
  · intro g r b
    simp [isGreen, isGreenP, dominanceThreshold, minGreen, and_assoc]
  · intro p h
    simp only [punchPixel, h, if_true]
  · intro p h
    simp only [punchPixel, h, Bool.false_eq_true, if_false]
  · intro ps
    exact processDataP_flatten dominanceThreshold minGreen ps
  · intro ps i
    simp [extract, List.getElem?_map]

/-- C1 witness: the spec §8.7 scenario, pixel (0,255,0,255) is key and becomes
(0,255,0,0); pixel (200,200,200,255) is not key and is unchanged. -/
theorem chromaKey_classification_witness :
    punchPixel { r := 0, g := 255, b := 0, a := 255 }
        = { r := 0, g := 255, b := 0, a := 0 } ∧
    punchPixel { r := 200, g := 200, b := 200, a := 255 }
        = { r := 200, g := 200, b := 200, a := 255 } :=
  ⟨chromaKey_classification.2.1 { r := 0, g := 255, b := 0, a := 255 } (by decide),
   chromaKey_classification.2.2.1 { r := 200, g := 200, b := 200, a := 255 } (by decide)⟩

/-- C7: the chroma-key extractor is idempotent for every buffer and every
policy (dominance margin and minimum green), both on structured pixel lists
and on the flat RGBA byte array the source loop walks. -/
theorem chromaKey_idempotent :
    (∀ margin minG : Nat, ∀ ps : List Pixel,
      extractP margin minG (extractP margin minG ps) = extractP margin minG ps) ∧
    (∀ data : List Nat, processData (processData data) = processData data) := by
  refine ⟨fun margin minG ps => extractP_idem margin minG ps, fun data => ?_⟩
  exact processDataP_idem dominanceThreshold minGreen data

/-- C6: with target dimensions absent, or equal to the canvas dimensions,
`resize` skips resampling and encodes the buffer as-is, whatever scaling
function the host would have used. -/
theorem resize_skip (scale : Buffer → Nat → Nat → Buffer) (buf : Buffer)
    (tw th : Option Nat)
    (h : (tw = none ∧ th = none) ∨ (tw = some buf.w ∧ th = some buf.h)) :
    resize scale buf tw th = { pixels := buf } := by
  rcases h with ⟨h1, h2⟩ | ⟨h1, h2⟩ <;> subst h1 <;> subst h2
  · rfl
  · simp [resize]

/-- C6 witness: a 2×1 buffer with target (2,1) is encoded as-is, under a
scaling function that would have wrecked it. -/
theorem resize_skip_witness :
    resize (fun _ tw th => { w := tw, h := th, data := [] })
        { w := 2, h := 1
        , data := [{ r := 0, g := 255, b := 0, a := 0 }
                  , { r := 200, g := 200, b := 200, a := 255 }] }
        (some 2) (some 1)
      = { pixels :=
          { w := 2, h := 1
          , data := [{ r := 0, g := 255, b := 0, a := 0 }
                    , { r := 200, g := 200, b := 200, a := 255 }] } } :=
  resize_skip (fun _ tw th => { w := tw, h := th, data := [] }) _ _ _ (Or.inr ⟨rfl, rfl⟩)

/-- C3: the history never exceeds ten entries on any event trace; a push
inserts at the front, dropping the back entry exactly when the cache is full;
eleven pushes in sequence leave the ten most recent entries, newest first,
with the first-pushed entry gone. -/
theorem historyCache_capacity :
    (∀ trace : List Event, (run initState trace).history.length ≤ 10) ∧
    (∀ (item : HistoryItem) (prev : List HistoryItem), prev.length ≤ 9 →
      historyPush item prev = item :: prev) ∧
    (∀ (item : HistoryItem) (prev : List HistoryItem), prev.length = 10 →
      historyPush item prev = item :: prev.dropLast) ∧
    (∀ i1 i2 i3 i4 i5 i6 i7 i8 i9 i10 i11 : HistoryItem,
      List.foldl (fun acc it => historyPush it acc) []
          [i1, i2, i3, i4, i5, i6, i7, i8, i9, i10, i11]
        = [i11, i10, i9, i8, i7, i6, i5, i4, i3, i2]) ∧
    (∀ i1 i2 i3 i4 i5 i6 i7 i8 i9 i10 i11 : HistoryItem,
      i1 ∉ [i2, i3, i4, i5, i6, i7, i8, i9, i10, i11] →
      i1 ∉ List.foldl (fun acc it => historyPush it acc) []
          [i1, i2, i3, i4, i5, i6, i7, i8, i9, i10, i11]) := by
  refine ⟨?_, ?_, ?_, ?_, ?_⟩
  · intro trace
    exact run_history_length_le trace initState (by simp [initState])
  · intro item prev h
    simp only [historyPush]
    refine List.take_of_length_le ?_
    simp only [List.length_cons]
    omega
  · intro item prev h
    have he : historyPush item prev = item :: prev.take 9 := rfl
    rw [he, List.dropLast_eq_take, h]
  · intro i1 i2 i3 i4 i5 i6 i7 i8 i9 i10 i11
    rfl
  · intro i1 i2 i3 i4 i5 i6 i7 i8 i9 i10 i11 h hc
    have he : List.foldl (fun acc it => historyPush it acc) []
        [i1, i2, i3, i4, i5, i6, i7, i8, i9, i10, i11]
      = [i11, i10, i9, i8, i7, i6, i5, i4, i3, i2] := rfl
    rw [he] at hc
    simp only [List.mem_cons, List.not_mem_nil, or_false] at h hc
    tauto

/-- C3 witness: a push below capacity prepends; a push at capacity drops the
back entry; eleven pushes of distinct records lose the first one. -/
theorem historyCache_capacity_witness :
    historyPush (wItem 12) [wItem 1] = [wItem 12, wItem 1] ∧
    historyPush (wItem 12)
        [wItem 1, wItem 2, wItem 3, wItem 4, wItem 5, wItem 6, wItem 7, wItem 8,
         wItem 9, wItem 10]
      = wItem 12 ::
        ([wItem 1, wItem 2, wItem 3, wItem 4, wItem 5, wItem 6, wItem 7, wItem 8,
          wItem 9, wItem 10] : List HistoryItem).dropLast ∧
    wItem 1 ∉ List.foldl (fun acc it => historyPush it acc) []
        [wItem 1, wItem 2, wItem 3, wItem 4, wItem 5, wItem 6, wItem 7, wItem 8,
         wItem 9, wItem 10, wItem 11] :=
  ⟨historyCache_capacity.2.1 _ _ (by decide),
   historyCache_capacity.2.2.1 _ _ (by decide),
   historyCache_capacity.2.2.2.2 _ _ _ _ _ _ _ _ _ _ _ (by decide)⟩

/-- C8: a generate request is a no-op when the source image is absent (no
state transition, no pending edit call), and likewise when a generation is
already in flight (the PUNCH ALPHA button is disabled while `PROCESSING`). -/
theorem generate_noop (s : AppState) :
    (s.sourceImage = none →
      clickGenerate s = (s, none) ∧ handleGenerateStart s = (s, none)) ∧
    (s.status = AppStatus.PROCESSING → clickGenerate s = (s, none)) := by
  constructor
  · intro h
    constructor
    · simp [clickGenerate, truthyStr, h]
    · simp [handleGenerateStart, truthyStr, h]
  · intro h
    simp [clickGenerate, h]

/-- C8 witness: the initial state (no source) and a processing state both
ignore a generate request. -/
theorem generate_noop_witness :
    clickGenerate initState = (initState, none) ∧
    clickGenerate
        { initState with status := AppStatus.PROCESSING, sourceImage := some "img" }
      = ({ initState with status := AppStatus.PROCESSING, sourceImage := some "img" }
        , none) :=
  ⟨((generate_noop initState).1 rfl).1,
   (generate_noop
     { initState with status := AppStatus.PROCESSING, sourceImage := some "img" }).2 rfl⟩

/-- C9: selecting a new source image from any state moves to `IDLE` and clears
the generated image, the error message and the scene-analysis text, storing
the new source. -/
theorem imageSelect_resets (s : AppState) (img ty : String) (dims : Nat × Nat) :
    (handleImageSelect s img ty dims).status = AppStatus.IDLE ∧
    (handleImageSelect s img ty dims).generatedImage = none ∧
    (handleImageSelect s img ty dims).error = none ∧
    (handleImageSelect s img ty dims).analysis = none ∧
    (handleImageSelect s img ty dims).sourceImage = some img :=
  ⟨rfl, rfl, rfl, rfl, rfl⟩

/-- C10: the history record built on a successful generation uses the
post-processed image itself as the thumbnail, so on every event trace each
cached entry has thumbnail bytes equal to its generated bytes. -/
theorem thumbnail_eq_generated :
    (∀ (p : PendingGen) (finalImage : String) (now : Nat),
      (mkHistoryEntry p finalImage now).thumbnail
        = (mkHistoryEntry p finalImage now).generated) ∧
    (∀ (s : AppState) (p : PendingGen) (finalImage : String) (now : Nat),
      (handleGenerateSuccess s p finalImage now).history.head?
        = some (mkHistoryEntry p finalImage now)) ∧
    (∀ trace : List Event,
      ((run initState trace).history.all fun it => it.thumbnail == it.generated)
        = true) := by
  refine ⟨fun p f now => rfl, fun s p f now => rfl, fun trace => ?_⟩
  exact run_history_all_thumb trace initState rfl

/-- C2: the source tracks no generation-sequence token.  Evaluating the code
at the overlapping run — select `imgA`, start a generation (which captures
`imgA` in its closure), select `imgB` while the call is in flight, then let
the stale call resolve — shows the stale success is applied: the state jumps
to `SUCCESS` (from `IDLE`, not even from `PROCESSING`), the stale result
becomes the displayed generated image while the source shows `imgB`, and a
history record pairing the replaced source `imgA` with the stale result is
pushed. -/
theorem staleResult_applied :
    (clickGenerate (handleImageSelect initState "imgA" "image/png" (2, 2))).2
      = some wPendingA ∧
    (run initState
        [Event.select "imgA" "image/png" (2, 2), Event.genClick,
         Event.select "imgB" "image/png" (3, 3)]).status = AppStatus.IDLE ∧
    (run initState
        [Event.select "imgA" "image/png" (2, 2), Event.genClick,
         Event.select "imgB" "image/png" (3, 3)]).generatedImage = none ∧
    (run initState
        [Event.select "imgA" "image/png" (2, 2), Event.genClick,
         Event.select "imgB" "image/png" (3, 3),
         Event.genSuccess wPendingA "resultA" 1000]).status = AppStatus.SUCCESS ∧
    (run initState
        [Event.select "imgA" "image/png" (2, 2), Event.genClick,
         Event.select "imgB" "image/png" (3, 3),
         Event.genSuccess wPendingA "resultA" 1000]).generatedImage = some "resultA" ∧
    (run initState
        [Event.select "imgA" "image/png" (2, 2), Event.genClick,
         Event.select "imgB" "image/png" (3, 3),
         Event.genSuccess wPendingA "resultA" 1000]).sourceImage = some "imgB" ∧
    (run initState
        [Event.select "imgA" "image/png" (2, 2), Event.genClick,
         Event.select "imgB" "image/png" (3, 3),
         Event.genSuccess wPendingA "resultA" 1000]).history.head?
      = some (mkHistoryEntry wPendingA "resultA" 1000) ∧
    (mkHistoryEntry wPendingA "resultA" 1000).original = "imgA" := by
  refine ⟨?_, rfl, rfl, rfl, rfl, rfl, rfl, rfl⟩
  rfl

/-- C4 counterexample: from a `SUCCESS` state holding a previous generated
image, a generation that fails does not leave that image untouched — the
attempt cleared it when it started, and it stays absent after the failure. -/
theorem failedGeneration_counterexample :
    c4Before.generatedImage = some "oldGen" ∧
    (handleGenerateFailure (clickGenerate c4Before).1
        (some "edit service down")).generatedImage = none ∧
    (handleGenerateFailure (clickGenerate c4Before).1
        (some "edit service down")).generatedImage ≠ c4Before.generatedImage := by
  refine ⟨rfl, rfl, by decide⟩

/-- C4 amended: a generation that starts from a non-processing state with a
source present and then fails at any step leaves the state in `ERROR` with a
non-empty human-readable message and the history unchanged from before the
attempt; the generated image was cleared when the attempt started and is
absent after the failure. -/
theorem failedGeneration_state (s : AppState) (m : Option String)
    (h1 : truthyStr s.sourceImage = true) (h2 : s.status ≠ AppStatus.PROCESSING) :
    (handleGenerateFailure (clickGenerate s).1 m).status = AppStatus.ERROR ∧
    (handleGenerateFailure (clickGenerate s).1 m).history = s.history ∧
    (handleGenerateFailure (clickGenerate s).1 m).generatedImage = none ∧
    ∃ msg, (handleGenerateFailure (clickGenerate s).1 m).error = some msg ∧
      msg ≠ "" := by
  have hcond : (!truthyStr s.sourceImage || s.status == AppStatus.PROCESSING)
      = false := by
    rw [h1]
    simpa using h2
  have hclick : (clickGenerate s).1
      = { s with
            status := AppStatus.PROCESSING
          , error := none
          , generatedImage := none } := by
    unfold clickGenerate
    rw [hcond]
    unfold handleGenerateStart
    rw [h1]
    rfl
  rw [hclick]
  exact ⟨rfl, rfl, rfl, failMessage m, rfl, failMessage_ne_empty m⟩

/-- C4 witness: the amended statement at the concrete `SUCCESS` state. -/
theorem failedGeneration_state_witness :
    (handleGenerateFailure (clickGenerate c4Before).1
        (some "edit service down")).status = AppStatus.ERROR ∧
    (handleGenerateFailure (clickGenerate c4Before).1
        (some "edit service down")).history = c4Before.history ∧
    (handleGenerateFailure (clickGenerate c4Before).1
        (some "edit service down")).generatedImage = none ∧
    ∃ msg, (handleGenerateFailure (clickGenerate c4Before).1
        (some "edit service down")).error = some msg ∧ msg ≠ "" :=
  failedGeneration_state c4Before (some "edit service down") (by decide)
    (by decide)

/-- C5 counterexample: history ids are `Date.now().toString()`; two
generations completing at the same millisecond reading (here 7) produce two
entries with the identical id `"7"`, so the ids are not collision-free. -/
theorem historyIds_collide :
    ((run initState
        [Event.select "img" "image/png" (1, 1), Event.genClick,
         Event.genSuccess wPendingS "r1" 7, Event.genClick,
         Event.genSuccess wPendingS "r2" 7]).history.map HistoryItem.id)
      = ["7", "7"] ∧
    ¬ ((run initState
        [Event.select "img" "image/png" (1, 1), Event.genClick,
         Event.genSuccess wPendingS "r1" 7, Event.genClick,
         Event.genSuccess wPendingS "r2" 7]).history.map HistoryItem.id).Nodup := by
  constructor
  · rfl
  · decide

/-- C5 amended: the id of a history entry is the decimal print of the
`Date.now()` reading at its success transition, so entries created at
pairwise distinct clock readings have pairwise distinct ids; uniqueness holds
only under that clock assumption. -/
theorem historyIds_distinct (p1 p2 : PendingGen) (f1 f2 : String) (n1 n2 : Nat)
    (h : n1 ≠ n2) :
    (mkHistoryEntry p1 f1 n1).id = toString n1 ∧
    (mkHistoryEntry p1 f1 n1).id ≠ (mkHistoryEntry p2 f2 n2).id := by
  refine ⟨rfl, ?_⟩
  show toString n1 ≠ toString n2
  intro hc
  exact h (natToString_inj hc)

/-- C5 witness: entries stamped at readings 7 and 8 have distinct ids. -/
theorem historyIds_distinct_witness :
    (mkHistoryEntry wPendingS "r1" 7).id = toString 7 ∧
    (mkHistoryEntry wPendingS "r1" 7).id ≠ (mkHistoryEntry wPendingS "r2" 8).id :=
  historyIds_distinct wPendingS wPendingS "r1" "r2" 7 8 (by decide)

end AlphaPunch
